import Mathlib

/-!
Shallow embedding of `mqtrigger/messageQueue/nats.go`: the NATS message-queue
trigger core (subscription activation, topic validation, and the per-message
dispatch / retry / acknowledge / publish handler `msgHandler`).

External collaborators (the Go HTTP client, the NATS streaming client library,
`nsUtil.IsChannelNameValid`, `fission.UrlForFunction`) are modelled as explicit
parameters: the per-attempt result of `http.DefaultClient.Do` is a function
from the attempt index to a `DoResult`, and broker side effects (the HTTP
invocations, `msg.Ack()` and `nsConn.Publish`) are recorded in a trace of
`Event`s, in the order the source performs the calls.
-/

namespace FissionMQ

/-- `fission.FunctionReferenceType` is a string type; the only value the
handler supports is `FunctionReferenceTypeFunctionName = "name"`. -/
def FunctionReferenceTypeFunctionName : String := "name"

/-- The fields of `crd.MessageQueueTrigger` read by nats.go
(`Spec.Topic`, `Spec.ResponseTopic`, `Spec.ErrorTopic`, `Spec.ContentType`,
`Spec.MaxRetries`, `Spec.FunctionReference.{Type,Name}`, `Metadata.{Name,UID}`).
`MaxRetries` is a Go int; a non-positive value runs the retry loop zero times,
which the `Nat` model represents as `0`. -/
structure MessageQueueTrigger where
  topic : String
  responseTopic : String
  errorTopic : String
  contentType : String
  maxRetries : Nat
  functionRefType : String
  functionRefName : String
  metadataName : String
  metadataUID : String
deriving DecidableEq

/-- The result of `ioutil.ReadAll(resp.Body)` for a given response: either the
body bytes, or a read error. -/
inductive BodyRead where
  | ok (body : List Nat)
  | readError (msg : String)
deriving DecidableEq

/-- An `*http.Response`: the status code, and what reading its body yields. -/
structure HttpResponse where
  statusCode : Nat
  bodyRead : BodyRead
deriving DecidableEq

/-- The outcome of one `http.DefaultClient.Do(req)` call, chosen by the
environment: a possibly-absent response, a possibly-present transport error,
and whether this attempt consumed the request's body reader (the transport
reads the `bytes.Reader` when it transmits the request; a dial failure may
leave it unread). -/
structure DoResult where
  resp : Option HttpResponse
  err : Option String
  consumesBody : Bool
deriving DecidableEq

/-- The environment of one dispatcher run: whether `http.NewRequest` fails,
and the result of the i-th `Do` call. -/
structure Env where
  newRequestErr : Bool
  attemptResult : Nat → DoResult

/-- Observable side effects of one dispatcher run, in order:
`invoke i p` is the i-th `http.DefaultClient.Do` call transmitting payload `p`;
`ack` is the `msg.Ack()` call; `publish t p` is `nats.nsConn.Publish(t, p)`. -/
inductive Event where
  | invoke (attempt : Nat) (payload : List Nat)
  | ack
  | publish (topic : String) (payload : List Nat)
deriving DecidableEq

/-- How one dispatcher run ends. `fatal` is `log.Fatalf` (process exit);
`panicked` is the nil-pointer dereference of `resp.Body` at
`defer resp.Body.Close()` when `resp == nil` after the loop. -/
inductive HandlerOutcome where
  | completed
  | panicked
  | fatal
deriving DecidableEq

/-- The trace of broker/HTTP side effects plus how the run ended. -/
structure HandlerResult where
  trace : List Event
  outcome : HandlerOutcome
deriving DecidableEq

/-- `strings.TrimPrefix(s, "/")`: removes one leading "/" if present. -/
def stripLeadingSlash (s : String) : String :=
  if s.startsWith "/" then s.drop 1 else s

/-- The outbound invocation request: the URL
`nats.routerUrl + "/" + strings.TrimPrefix(fission.UrlForFunction(name), "/")`,
the four headers added to `req.Header`, and the payload `msg.Data` wrapped by
`bytes.NewReader`. -/
structure Request where
  url : String
  headers : List (String × String)
  body : List Nat
deriving DecidableEq

/-- The `headers` map built by `msgHandler` (Go map iteration order during
`req.Header.Add` is unspecified; the list fixes one order, and claims about
the headers are stated up to membership). -/
def requestHeaders (trigger : MessageQueueTrigger) : List (String × String) :=
  [("X-Fission-MQTrigger-Topic", trigger.topic),
   ("X-Fission-MQTrigger-RespTopic", trigger.responseTopic),
   ("X-Fission-MQTrigger-ErrorTopic", trigger.errorTopic),
   ("Content-Type", trigger.contentType)]

/-- `http.NewRequest("POST", url, bytes.NewReader(msg.Data))` plus the
header-adding loop. `urlForFunction` models the external
`fission.UrlForFunction`. -/
def buildRequest (routerUrl : String) (urlForFunction : String → String)
    (trigger : MessageQueueTrigger) (msgData : List Nat) : Request :=
  { url := routerUrl ++ "/" ++ stripLeadingSlash (urlForFunction trigger.functionRefName)
    headers := requestHeaders trigger
    body := msgData }

/-- Result of the retry loop: the invocation events it issued, and the values
of the `resp` and `err` variables when the loop exits. -/
structure LoopResult where
  trace : List Event
  resp : Option HttpResponse
  err : Option String
deriving DecidableEq

/-- The retry loop of `msgHandler`:

    for attempt := 0; attempt < trigger.Spec.MaxRetries; attempt++ {
        resp, err = http.DefaultClient.Do(req)
        if resp == nil { continue }
        if err == nil && resp.StatusCode == 200 { break }
    }

`fuel` is the number of iterations left, `attempt` the current index,
`consumed` whether the request's single body reader has already been drained
(the payload an attempt transmits is `data` the first time the transport
consumes the reader, and empty afterwards), and `resp0`/`err0` the current
values of the `resp`/`err` variables. -/
def retryLoop (env : Nat → DoResult) (data : List Nat) :
    Nat → Nat → Bool → Option HttpResponse → Option String → LoopResult
  | 0, _, _, resp0, err0 => ⟨[], resp0, err0⟩
  | Nat.succ fuel, attempt, consumed, _, _ =>
    match (env attempt).resp with
    | none =>
      let rest := retryLoop env data fuel (attempt + 1)
        (consumed || (env attempt).consumesBody) none (env attempt).err
      ⟨Event.invoke attempt
          (if (env attempt).consumesBody && !consumed then data else []) :: rest.trace,
       rest.resp, rest.err⟩
    | some hr =>
      if (env attempt).err = none ∧ hr.statusCode = 200 then
        ⟨[Event.invoke attempt
            (if (env attempt).consumesBody && !consumed then data else [])],
         some hr, (env attempt).err⟩
      else
        let rest := retryLoop env data fuel (attempt + 1)
          (consumed || (env attempt).consumesBody) (some hr) (env attempt).err
        ⟨Event.invoke attempt
            (if (env attempt).consumesBody && !consumed then data else []) :: rest.trace,
         rest.resp, rest.err⟩

/-- Everything `msgHandler` does after the retry loop:

    defer resp.Body.Close()            -- dereferences resp: panic when nil
    if resp == nil { return }          -- (unreachable when resp is nil)
    body, bodyErr := ioutil.ReadAll(resp.Body)
    if bodyErr != nil { return }
    if err != nil || resp.StatusCode != 200 {
        if len(trigger.Spec.ErrorTopic) > 0 { nats.nsConn.Publish(errorTopic, body) }
        return
    }
    msg.Ack()                          -- failure only logged
    if len(trigger.Spec.ResponseTopic) > 0 { nats.nsConn.Publish(responseTopic, body) }
-/
def interpretOutcome (trigger : MessageQueueTrigger) (lr : LoopResult) : HandlerResult :=
  match lr.resp with
  | none => ⟨lr.trace, HandlerOutcome.panicked⟩
  | some hr =>
    match hr.bodyRead with
    | BodyRead.readError _ => ⟨lr.trace, HandlerOutcome.completed⟩
    | BodyRead.ok body =>
      if lr.err ≠ none ∨ hr.statusCode ≠ 200 then
        if trigger.errorTopic.length > 0 then
          ⟨lr.trace ++ [Event.publish trigger.errorTopic body], HandlerOutcome.completed⟩
        else
          ⟨lr.trace, HandlerOutcome.completed⟩
      else
        if trigger.responseTopic.length > 0 then
          ⟨lr.trace ++ [Event.ack, Event.publish trigger.responseTopic body],
           HandlerOutcome.completed⟩
        else
          ⟨lr.trace ++ [Event.ack], HandlerOutcome.completed⟩

/-- The per-message handler closure returned by `msgHandler(nats, trigger)`:
the unsupported-reference-type fatal check, request building, the retry loop,
and outcome interpretation. -/
def msgHandler (routerUrl : String) (urlForFunction : String → String)
    (env : Env) (trigger : MessageQueueTrigger) (msgData : List Nat) : HandlerResult :=
  if trigger.functionRefType ≠ FunctionReferenceTypeFunctionName then
    ⟨[], HandlerOutcome.fatal⟩
  else if env.newRequestErr then
    ⟨[], HandlerOutcome.completed⟩
  else
    let req := buildRequest routerUrl urlForFunction trigger msgData
    interpretOutcome trigger
      (retryLoop env.attemptResult req.body trigger.maxRetries 0 false none none)

/-- The retry loop as run by `msgHandler` (initial attempt 0, reader not yet
consumed, `resp`/`err` zero-valued). -/
def loopRun (env : Env) (trigger : MessageQueueTrigger) (msgData : List Nat) : LoopResult :=
  retryLoop env.attemptResult msgData trigger.maxRetries 0 false none none

/-- `isTopicValidForNats`: calls the external
`nsUtil.IsChannelNameValid(topic, false)` (wildcards not allowed). -/
def isTopicValidForNats (isChannelNameValid : String → Bool → Bool) (topic : String) : Bool :=
  isChannelNameValid topic false

/-- `(nats Nats).subscribe(trigger)`: validates the topic, then (only if
valid) calls `nats.nsConn.Subscribe`. Returns the error (if any) and the
number of broker `Subscribe` calls made. `brokerSubscribeErr` is the external
broker's answer. -/
def subscribe (isChannelNameValid : String → Bool → Bool)
    (brokerSubscribeErr : Option String) (trigger : MessageQueueTrigger) :
    Option String × Nat :=
  if ¬ isTopicValidForNats isChannelNameValid trigger.topic then
    (some ("Not a valid topic: " ++ trigger.topic), 0)
  else
    match brokerSubscribeErr with
    | some e => (some e, 1)
    | none => (none, 1)

/-- `err == nil && resp != nil && resp.StatusCode == 200`: the per-attempt
success test the loop breaks on (and the claims' notion of a successful
invocation attempt). -/
def finalSuccess (resp : Option HttpResponse) (err : Option String) : Bool :=
  match resp, err with
  | some hr, none => hr.statusCode == 200
  | _, _ => false

/-- Whether one `Do` outcome is a successful attempt. -/
def attemptSucceeds (r : DoResult) : Bool :=
  finalSuccess r.resp r.err

/-- Whether any of the first `n` attempts the environment would answer is
successful. -/
def anySucceeds (env : Nat → DoResult) (n : Nat) : Bool :=
  (List.range n).any fun i => attemptSucceeds (env i)

/-- Number of `invoke` events in a trace. -/
def numInvokes : List Event → Nat
  | [] => 0
  | Event.invoke _ _ :: rest => numInvokes rest + 1
  | _ :: rest => numInvokes rest

/-- The publish events of a trace, as (topic, payload) pairs in order. -/
def publishes : List Event → List (String × List Nat)
  | [] => []
  | Event.publish t p :: rest => (t, p) :: publishes rest
  | _ :: rest => publishes rest

/-- True iff every publish event in the trace is preceded by an ack event:
scanning left to right, no publish may appear before the first ack. -/
def noPublishBeforeAck : List Event → Bool
  | [] => true
  | Event.ack :: _ => true
  | Event.publish _ _ :: _ => false
  | Event.invoke _ _ :: rest => noPublishBeforeAck rest

/-- True iff no invoke event that comes after some body-consuming attempt
carries a non-empty payload: once attempt `i` consumed the request's body
reader, every later attempt `j > i` transmits an empty payload. -/
def noResendAfterConsume (env : Nat → DoResult) : List Event → Bool
  | [] => true
  | Event.invoke j p :: rest =>
      decide (∀ i, i < j → (env i).consumesBody = true → p = []) &&
        noResendAfterConsume env rest
  | _ :: rest => noResendAfterConsume env rest

/-- The body obtained from the loop's final response, when there is a final
response and reading its body succeeds. -/
def finalReadBody (lr : LoopResult) : Option (List Nat) :=
  match lr.resp with
  | some hr =>
    match hr.bodyRead with
    | BodyRead.ok b => some b
    | BodyRead.readError _ => none
  | none => none

/-! ## Concrete triggers and environments used as test inputs -/

/-- A trigger whose single attempt succeeds (status 200) but whose response
body is unreadable. -/
def exTrgC1 : MessageQueueTrigger := ⟨"t", "", "", "text/plain", 1, "name", "fn", "m", "u"⟩

def exEnvC1 : Env :=
  ⟨false, fun _ => ⟨some ⟨200, BodyRead.readError "read failed"⟩, none, true⟩⟩

def exTrgC1w : MessageQueueTrigger := ⟨"t", "resp", "", "text/plain", 2, "name", "fn", "m", "u"⟩

def exEnvC1w : Env := ⟨false, fun _ => ⟨some ⟨200, BodyRead.ok [1, 2]⟩, none, true⟩⟩

/-- Three attempts, all failing in different ways: non-200 status, transport
error with no response, then non-200 status again. -/
def exTrgC2 : MessageQueueTrigger := ⟨"t", "", "", "text/plain", 3, "name", "fn", "m", "u"⟩

def exEnvC2 : Env :=
  ⟨false, fun i =>
    if i = 0 then ⟨some ⟨500, BodyRead.ok [1]⟩, none, true⟩
    else if i = 1 then ⟨none, some "timeout", false⟩
    else ⟨some ⟨503, BodyRead.ok [2]⟩, none, false⟩⟩

/-- Every attempt returns a nil response with a transport error
(e.g. connection refused). -/
def exTrgC3 : MessageQueueTrigger := ⟨"t", "", "", "text/plain", 1, "name", "fn", "m", "u"⟩

def exEnvC3 : Env := ⟨false, fun _ => ⟨none, some "connection refused", false⟩⟩

/-- Exhausted with a readable final body, errorTopic configured. -/
def exTrgC4 : MessageQueueTrigger := ⟨"t", "", "errors", "text/plain", 2, "name", "fn", "m", "u"⟩

def exEnvC4 : Env := ⟨false, fun _ => ⟨some ⟨500, BodyRead.ok [7]⟩, none, true⟩⟩

/-- Exhausted with an unreadable final body, errorTopic configured. -/
def exTrgC4c : MessageQueueTrigger := ⟨"t", "", "err", "text/plain", 1, "name", "fn", "m", "u"⟩

def exEnvC4c : Env := ⟨false, fun _ => ⟨some ⟨500, BodyRead.readError "boom"⟩, none, true⟩⟩

/-- A trigger with an unsupported function reference type. -/
def exTrgC5 : MessageQueueTrigger :=
  ⟨"t", "", "", "text/plain", 1, "function-weights", "fn", "m", "u"⟩

def exEnvC5 : Env := ⟨false, fun _ => ⟨none, none, false⟩⟩

def exTrgC5w : MessageQueueTrigger := ⟨"t", "", "", "text/plain", 1, "name", "fn", "m", "u"⟩

def exEnvC5w : Env := ⟨false, fun _ => ⟨none, some "connection refused", false⟩⟩

/-- First attempt succeeds with a readable body; response topic configured. -/
def exTrgC6 : MessageQueueTrigger := ⟨"t", "resp", "", "text/plain", 1, "name", "fn", "m", "u"⟩

def exEnvC6 : Env := ⟨false, fun _ => ⟨some ⟨200, BodyRead.ok [3]⟩, none, true⟩⟩

/-- A validator that rejects every topic, and a trigger with a wildcard topic. -/
def exValidC7 : String → Bool → Bool := fun _ _ => false

def exTrgC7 : MessageQueueTrigger := ⟨"foo.*", "", "", "text/plain", 1, "name", "fn", "m", "u"⟩

def exTrgC8 : MessageQueueTrigger :=
  ⟨"topic", "resp", "err", "application/json", 3, "name", "fn", "m", "u"⟩

/-- Exhausted with an unreadable final body, errorTopic configured. -/
def exTrgC9 : MessageQueueTrigger := ⟨"t", "", "err", "text/plain", 1, "name", "fn", "m", "u"⟩

def exEnvC9 : Env := ⟨false, fun _ => ⟨some ⟨500, BodyRead.readError "bad"⟩, none, true⟩⟩

/-- Two failing attempts, both consuming the request body reader. -/
def exTrgC10 : MessageQueueTrigger := ⟨"t", "", "", "text/plain", 2, "name", "fn", "m", "u"⟩

def exEnvC10 : Env := ⟨false, fun _ => ⟨some ⟨500, BodyRead.ok []⟩, none, true⟩⟩

/-! ## Basic facts about `finalSuccess` -/

theorem finalSuccess_none (e : Option String) : finalSuccess none e = false := by
  cases e <;> rfl

theorem finalSuccess_some_none (hr : HttpResponse) :
    finalSuccess (some hr) none = (hr.statusCode == 200) := rfl

theorem finalSuccess_some_some (hr : HttpResponse) (s : String) :
    finalSuccess (some hr) (some s) = false := rfl

theorem finalSuccess_true_elim {resp : Option HttpResponse} {err : Option String}
    (h : finalSuccess resp err = true) :
    ∃ hr, resp = some hr ∧ err = none ∧ hr.statusCode = 200 := by
  cases resp with
  | none => rw [finalSuccess_none] at h; exact Bool.noConfusion h
  | some hr =>
    cases err with
    | none =>
      rw [finalSuccess_some_none] at h
      exact ⟨hr, rfl, rfl, by simpa using h⟩
    | some s => rw [finalSuccess_some_some] at h; exact Bool.noConfusion h

theorem anySucceeds_iff (env : Nat → DoResult) (n : Nat) :
    anySucceeds env n = true ↔ ∃ i, i < n ∧ attemptSucceeds (env i) = true := by
  simp [anySucceeds, List.any_eq_true, List.mem_range]

theorem allFail_of_anySucceeds_false {env : Nat → DoResult} {n : Nat}
    (h : anySucceeds env n = false) :
    ∀ i, i < n → attemptSucceeds (env i) = false := by
  intro i hi
  cases hb : attemptSucceeds (env i) with
  | false => rfl
  | true =>
    have htrue : anySucceeds env n = true := (anySucceeds_iff env n).2 ⟨i, hi, hb⟩
    rw [h] at htrue
    exact Bool.noConfusion htrue

/-! ## Facts about the retry loop -/

theorem retryLoop_only_invokes (env : Nat → DoResult) (data : List Nat) :
    ∀ fuel attempt consumed resp0 err0 ev,
      ev ∈ (retryLoop env data fuel attempt consumed resp0 err0).trace →
      ∃ i p, ev = Event.invoke i p := by
  intro fuel
  induction fuel with
  | zero => intro attempt consumed resp0 err0 ev h; simp [retryLoop] at h
  | succ fuel ih =>
    intro attempt consumed resp0 err0 ev h
    rcases hre : (env attempt).resp with _ | hr <;>
      simp only [retryLoop, hre] at h
    · rcases List.mem_cons.1 h with h | h
      · exact ⟨attempt, _, h⟩
      · exact ih _ _ _ _ _ h
    · by_cases hc : (env attempt).err = none ∧ hr.statusCode = 200
      · rw [if_pos hc] at h
        rcases List.mem_singleton.1 h with h
        exact ⟨attempt, _, h⟩
      · rw [if_neg hc] at h
        rcases List.mem_cons.1 h with h | h
        · exact ⟨attempt, _, h⟩
        · exact ih _ _ _ _ _ h

theorem retryLoop_invoke_ge (env : Nat → DoResult) (data : List Nat) :
    ∀ fuel attempt consumed resp0 err0 j p,
      Event.invoke j p ∈ (retryLoop env data fuel attempt consumed resp0 err0).trace →
      attempt ≤ j := by
  intro fuel
  induction fuel with
  | zero => intro attempt consumed resp0 err0 j p h; simp [retryLoop] at h
  | succ fuel ih =>
    intro attempt consumed resp0 err0 j p h
    rcases hre : (env attempt).resp with _ | hr <;>
      simp only [retryLoop, hre] at h
    · rcases List.mem_cons.1 h with h | h
      · cases h; exact Nat.le_refl _
      · exact Nat.le_of_succ_le (ih _ _ _ _ _ _ h)
    · by_cases hc : (env attempt).err = none ∧ hr.statusCode = 200
      · rw [if_pos hc] at h
        rcases List.mem_singleton.1 h with h
        cases h; exact Nat.le_refl _
      · rw [if_neg hc] at h
        rcases List.mem_cons.1 h with h | h
        · cases h; exact Nat.le_refl _
        · exact Nat.le_of_succ_le (ih _ _ _ _ _ _ h)

theorem retryLoop_allfail_length (env : Nat → DoResult) (data : List Nat) :
    ∀ fuel attempt consumed resp0 err0,
      (∀ i, i < fuel → attemptSucceeds (env (attempt + i)) = false) →
      (retryLoop env data fuel attempt consumed resp0 err0).trace.length = fuel := by
  intro fuel
  induction fuel with
  | zero => intro attempt consumed resp0 err0 _; simp [retryLoop]
  | succ fuel ih =>
    intro attempt consumed resp0 err0 hfail
    have hfail0 : attemptSucceeds (env attempt) = false := by
      have h0 := hfail 0 (Nat.succ_pos fuel)
      simpa using h0
    have hrest : ∀ i, i < fuel → attemptSucceeds (env (attempt + 1 + i)) = false := by
      intro i hi
      have h2 := hfail (i + 1) (by omega)
      have e : attempt + (i + 1) = attempt + 1 + i := by omega
      rwa [e] at h2
    rcases hre : (env attempt).resp with _ | hr <;>
      simp only [retryLoop, hre]
    · simp [ih (attempt + 1) _ _ _ hrest]
    · have hnc : ¬((env attempt).err = none ∧ hr.statusCode = 200) := by
        rintro ⟨he, hs⟩
        rw [attemptSucceeds, hre, he, finalSuccess_some_none, hs] at hfail0
        simp at hfail0
      rw [if_neg hnc]
      simp [ih (attempt + 1) _ _ _ hrest]

theorem retryLoop_allfail_final (env : Nat → DoResult) (data : List Nat) :
    ∀ fuel attempt consumed resp0 err0,
      finalSuccess resp0 err0 = false →
      (∀ i, i < fuel → attemptSucceeds (env (attempt + i)) = false) →
      finalSuccess (retryLoop env data fuel attempt consumed resp0 err0).resp
        (retryLoop env data fuel attempt consumed resp0 err0).err = false := by
  intro fuel
  induction fuel with
  | zero => intro attempt consumed resp0 err0 h0 _; simpa [retryLoop] using h0
  | succ fuel ih =>
    intro attempt consumed resp0 err0 h0 hfail
    have hfail0 : attemptSucceeds (env attempt) = false := by
      have h0' := hfail 0 (Nat.succ_pos fuel)
      simpa using h0'
    have hrest : ∀ i, i < fuel → attemptSucceeds (env (attempt + 1 + i)) = false := by
      intro i hi
      have h2 := hfail (i + 1) (by omega)
      have e : attempt + (i + 1) = attempt + 1 + i := by omega
      rwa [e] at h2
    rcases hre : (env attempt).resp with _ | hr <;>
      simp only [retryLoop, hre]
    · exact ih (attempt + 1) _ _ _ (finalSuccess_none _) hrest
    · have hnc : ¬((env attempt).err = none ∧ hr.statusCode = 200) := by
        rintro ⟨he, hs⟩
        rw [attemptSucceeds, hre, he, finalSuccess_some_none, hs] at hfail0
        simp at hfail0
      rw [if_neg hnc]
      have hcur : finalSuccess (some hr) (env attempt).err = false := by
        rw [attemptSucceeds, hre] at hfail0
        exact hfail0
      exact ih (attempt + 1) _ _ _ hcur hrest

theorem retryLoop_success_final (env : Nat → DoResult) (data : List Nat) :
    ∀ fuel attempt consumed resp0 err0,
      (∃ i, i < fuel ∧ attemptSucceeds (env (attempt + i)) = true) →
      finalSuccess (retryLoop env data fuel attempt consumed resp0 err0).resp
        (retryLoop env data fuel attempt consumed resp0 err0).err = true := by
  intro fuel
  induction fuel with
  | zero =>
    intro attempt consumed resp0 err0 h
    obtain ⟨i, hi, _⟩ := h
    exact absurd hi (Nat.not_lt_zero i)
  | succ fuel ih =>
    intro attempt consumed resp0 err0 h
    by_cases hs : attemptSucceeds (env attempt) = true
    · obtain ⟨hr, hresp, herr, hstatus⟩ := finalSuccess_true_elim hs
      have hc : (env attempt).err = none ∧ hr.statusCode = 200 := ⟨herr, hstatus⟩
      simp only [retryLoop, hresp, if_pos hc]
      rw [herr, finalSuccess_some_none, hstatus]
      rfl
    · obtain ⟨i, hi, hsucc⟩ := h
      have hine : i ≠ 0 := by
        rintro rfl
        rw [Nat.add_zero] at hsucc
        exact hs hsucc
      obtain ⟨i', rfl⟩ := Nat.exists_eq_succ_of_ne_zero hine
      have hshift : attemptSucceeds (env (attempt + 1 + i')) = true := by
        have e : attempt + (i' + 1) = attempt + 1 + i' := by omega
        rwa [e] at hsucc
      have hnext : ∃ k, k < fuel ∧ attemptSucceeds (env (attempt + 1 + k)) = true :=
        ⟨i', by omega, hshift⟩
      rcases hre : (env attempt).resp with _ | hr <;>
        simp only [retryLoop, hre]
      · exact ih (attempt + 1) _ _ _ hnext
      · have hnc : ¬((env attempt).err = none ∧ hr.statusCode = 200) := by
          rintro ⟨he, hst⟩
          apply hs
          rw [attemptSucceeds, hre, he, finalSuccess_some_none, hst]
          rfl
        rw [if_neg hnc]
        exact ih (attempt + 1) _ _ _ hnext

theorem retryLoop_final_success_attempt (env : Nat → DoResult) (data : List Nat)
    (fuel attempt : Nat) (consumed : Bool) (resp0 : Option HttpResponse)
    (err0 : Option String)
    (h0 : finalSuccess resp0 err0 = false)
    (hfin : finalSuccess (retryLoop env data fuel attempt consumed resp0 err0).resp
      (retryLoop env data fuel attempt consumed resp0 err0).err = true) :
    ∃ i, i < fuel ∧ attemptSucceeds (env (attempt + i)) = true := by
  by_contra hnot
  push_neg at hnot
  have hall : ∀ i, i < fuel → attemptSucceeds (env (attempt + i)) = false := by
    intro i hi
    cases hb : attemptSucceeds (env (attempt + i)) with
    | false => rfl
    | true => exact absurd hb (hnot i hi)
  have hfalse := retryLoop_allfail_final env data fuel attempt consumed resp0 err0 h0 hall
  rw [hfin] at hfalse
  exact Bool.noConfusion hfalse

theorem retryLoop_consumed_empty (env : Nat → DoResult) (data : List Nat) :
    ∀ fuel attempt resp0 err0 j p,
      Event.invoke j p ∈ (retryLoop env data fuel attempt true resp0 err0).trace →
      p = [] := by
  intro fuel
  induction fuel with
  | zero => intro attempt resp0 err0 j p h; simp [retryLoop] at h
  | succ fuel ih =>
    intro attempt resp0 err0 j p h
    rcases hre : (env attempt).resp with _ | hr <;>
      simp only [retryLoop, hre, Bool.not_true, Bool.and_false, if_false,
        Bool.true_or] at h
    · rcases List.mem_cons.1 h with h | h
      · cases h; rfl
      · exact ih _ _ _ _ _ h
    · by_cases hc : (env attempt).err = none ∧ hr.statusCode = 200
      · rw [if_pos hc] at h
        rcases List.mem_singleton.1 h with h
        cases h; rfl
      · rw [if_neg hc] at h
        rcases List.mem_cons.1 h with h | h
        · cases h; rfl
        · exact ih _ _ _ _ _ h

theorem retryLoop_after_consume (env : Nat → DoResult) (data : List Nat) :
    ∀ fuel attempt consumed resp0 err0 i j p,
      attempt ≤ i → i < j → (env i).consumesBody = true →
      Event.invoke j p ∈ (retryLoop env data fuel attempt consumed resp0 err0).trace →
      p = [] := by
  intro fuel
  induction fuel with
  | zero => intro attempt consumed resp0 err0 i j p _ _ _ h; simp [retryLoop] at h
  | succ fuel ih =>
    intro attempt consumed resp0 err0 i j p hai hij hcons h
    have hja : j ≠ attempt := by omega
    rcases Nat.eq_or_lt_of_le hai with heq | hlt
    · -- attempt = i: this attempt consumes the reader, so the rest runs consumed
      subst heq
      rcases hre : (env attempt).resp with _ | hr <;>
        simp only [retryLoop, hre, hcons, Bool.or_true] at h
      · rcases List.mem_cons.1 h with h | h
        · cases h; exact absurd rfl hja
        · exact retryLoop_consumed_empty env data _ _ _ _ _ _ h
      · by_cases hc : (env attempt).err = none ∧ hr.statusCode = 200
        · rw [if_pos hc] at h
          rcases List.mem_singleton.1 h with h
          cases h; exact absurd rfl hja
        · rw [if_neg hc] at h
          rcases List.mem_cons.1 h with h | h
          · cases h; exact absurd rfl hja
          · exact retryLoop_consumed_empty env data _ _ _ _ _ _ h
    · -- attempt < i: recurse
      rcases hre : (env attempt).resp with _ | hr <;>
        simp only [retryLoop, hre] at h
      · rcases List.mem_cons.1 h with h | h
        · cases h; exact absurd rfl hja
        · exact ih _ _ _ _ i _ _ (by omega) hij hcons h
      · by_cases hc : (env attempt).err = none ∧ hr.statusCode = 200
        · rw [if_pos hc] at h
          rcases List.mem_singleton.1 h with h
          cases h; exact absurd rfl hja
        · rw [if_neg hc] at h
          rcases List.mem_cons.1 h with h | h
          · cases h; exact absurd rfl hja
          · exact ih _ _ _ _ i _ _ (by omega) hij hcons h

theorem retryLoop_first_invoke (env : Nat → DoResult) (data : List Nat)
    (fuel : Nat) (p : List Nat)
    (hcons : (env 0).consumesBody = true)
    (h : Event.invoke 0 p ∈ (retryLoop env data fuel 0 false none none).trace) :
    p = data := by
  cases fuel with
  | zero => simp [retryLoop] at h
  | succ fuel =>
    rcases hre : (env 0).resp with _ | hr <;>
      simp only [retryLoop, hre, hcons, Bool.not_false, Bool.and_true, if_true] at h
    · rcases List.mem_cons.1 h with h | h
      · cases h; rfl
      · exact absurd (retryLoop_invoke_ge env data _ _ _ _ _ _ _ h) (by omega)
    · by_cases hc : (env 0).err = none ∧ hr.statusCode = 200
      · rw [if_pos hc] at h
        rcases List.mem_singleton.1 h with h
        cases h; rfl
      · rw [if_neg hc] at h
        rcases List.mem_cons.1 h with h | h
        · cases h; rfl
        · exact absurd (retryLoop_invoke_ge env data _ _ _ _ _ _ _ h) (by omega)

/-! ## Facts about traces -/

theorem ack_not_mem_of_invokes {L : List Event}
    (h : ∀ ev ∈ L, ∃ i p, ev = Event.invoke i p) : Event.ack ∉ L := by
  intro hmem
  obtain ⟨i, p, hip⟩ := h _ hmem
  exact Event.noConfusion hip

theorem publishes_append (l1 l2 : List Event) :
    publishes (l1 ++ l2) = publishes l1 ++ publishes l2 := by
  induction l1 with
  | nil => rfl
  | cons e rest ih => cases e <;> simp [publishes, ih]

theorem publishes_of_invokes {L : List Event}
    (h : ∀ ev ∈ L, ∃ i p, ev = Event.invoke i p) : publishes L = [] := by
  induction L with
  | nil => rfl
  | cons e rest ih =>
    obtain ⟨i, p, rfl⟩ := h e (List.mem_cons_self e rest)
    simpa [publishes] using ih fun ev hev => h ev (List.mem_cons_of_mem _ hev)

theorem numInvokes_append (l1 l2 : List Event) :
    numInvokes (l1 ++ l2) = numInvokes l1 + numInvokes l2 := by
  induction l1 with
  | nil => simp [numInvokes]
  | cons e rest ih =>
    cases e with
    | invoke a p => simp [numInvokes, ih]; omega
    | ack => simp [numInvokes, ih]
    | publish t p => simp [numInvokes, ih]

theorem numInvokes_of_invokes {L : List Event}
    (h : ∀ ev ∈ L, ∃ i p, ev = Event.invoke i p) : numInvokes L = L.length := by
  induction L with
  | nil => rfl
  | cons e rest ih =>
    obtain ⟨i, p, rfl⟩ := h e (List.mem_cons_self e rest)
    simpa [numInvokes] using ih fun ev hev => h ev (List.mem_cons_of_mem _ hev)

theorem noPublishBeforeAck_of_invokes {L : List Event}
    (h : ∀ ev ∈ L, ∃ i p, ev = Event.invoke i p) : noPublishBeforeAck L = true := by
  induction L with
  | nil => rfl
  | cons e rest ih =>
    obtain ⟨i, p, rfl⟩ := h e (List.mem_cons_self e rest)
    simpa [noPublishBeforeAck] using ih fun ev hev => h ev (List.mem_cons_of_mem _ hev)

theorem noPublishBeforeAck_invokes_ack {L : List Event} (L2 : List Event)
    (h : ∀ ev ∈ L, ∃ i p, ev = Event.invoke i p) :
    noPublishBeforeAck (L ++ Event.ack :: L2) = true := by
  induction L with
  | nil => rfl
  | cons e rest ih =>
    obtain ⟨i, p, rfl⟩ := h e (List.mem_cons_self e rest)
    simpa [noPublishBeforeAck] using ih fun ev hev => h ev (List.mem_cons_of_mem _ hev)

theorem noResendAfterConsume_iff (env : Nat → DoResult) (L : List Event) :
    noResendAfterConsume env L = true ↔
      ∀ j p, Event.invoke j p ∈ L →
        ∀ i, i < j → (env i).consumesBody = true → p = [] := by
  induction L with
  | nil => simp [noResendAfterConsume]
  | cons e rest ih =>
    cases e with
    | invoke j p =>
      rw [show noResendAfterConsume env (Event.invoke j p :: rest) =
            (decide (∀ i, i < j → (env i).consumesBody = true → p = []) &&
              noResendAfterConsume env rest) from rfl,
        Bool.and_eq_true, decide_eq_true_iff, ih]
      constructor
      · rintro ⟨hhead, hrest⟩ j' p' hmem i hi hc
        rcases List.mem_cons.1 hmem with heq | hmem'
        · cases heq
          exact hhead i hi hc
        · exact hrest j' p' hmem' i hi hc
      · intro hall
        refine ⟨fun i hi hc => hall j p (List.mem_cons_self _ _) i hi hc, ?_⟩
        intro j' p' hmem' i hi hc
        exact hall j' p' (List.mem_cons_of_mem _ hmem') i hi hc
    | ack =>
      rw [show noResendAfterConsume env (Event.ack :: rest) =
            noResendAfterConsume env rest from rfl, ih]
      constructor
      · intro hrest j' p' hmem i hi hc
        rcases List.mem_cons.1 hmem with heq | hmem'
        · exact Event.noConfusion heq
        · exact hrest j' p' hmem' i hi hc
      · intro hall j' p' hmem' i hi hc
        exact hall j' p' (List.mem_cons_of_mem _ hmem') i hi hc
    | publish t q =>
      rw [show noResendAfterConsume env (Event.publish t q :: rest) =
            noResendAfterConsume env rest from rfl, ih]
      constructor
      · intro hrest j' p' hmem i hi hc
        rcases List.mem_cons.1 hmem with heq | hmem'
        · exact Event.noConfusion heq
        · exact hrest j' p' hmem' i hi hc
      · intro hall j' p' hmem' i hi hc
        exact hall j' p' (List.mem_cons_of_mem _ hmem') i hi hc

/-! ## Case lemmas for outcome interpretation, and the handler unfolding -/

theorem interpretOutcome_none (trigger : MessageQueueTrigger) (lr : LoopResult)
    (hresp : lr.resp = none) :
    interpretOutcome trigger lr = ⟨lr.trace, HandlerOutcome.panicked⟩ := by
  simp only [interpretOutcome, hresp]

theorem interpretOutcome_readError (trigger : MessageQueueTrigger) (lr : LoopResult)
    (hr : HttpResponse) (e : String)
    (hresp : lr.resp = some hr) (hbody : hr.bodyRead = BodyRead.readError e) :
    interpretOutcome trigger lr = ⟨lr.trace, HandlerOutcome.completed⟩ := by
  simp only [interpretOutcome, hresp, hbody]

theorem interpretOutcome_exhausted (trigger : MessageQueueTrigger) (lr : LoopResult)
    (hr : HttpResponse) (b : List Nat)
    (hresp : lr.resp = some hr)
    (hfs : finalSuccess lr.resp lr.err = false)
    (hbody : hr.bodyRead = BodyRead.ok b) :
    interpretOutcome trigger lr =
      if trigger.errorTopic.length > 0 then
        ⟨lr.trace ++ [Event.publish trigger.errorTopic b], HandlerOutcome.completed⟩
      else ⟨lr.trace, HandlerOutcome.completed⟩ := by
  have hcond : lr.err ≠ none ∨ hr.statusCode ≠ 200 := by
    rw [hresp] at hfs
    cases herr : lr.err with
    | none =>
      rw [herr, finalSuccess_some_none] at hfs
      right
      intro h200
      rw [h200] at hfs
      simp at hfs
    | some s => exact Or.inl (Option.some_ne_none s)
  simp only [interpretOutcome, hresp, hbody]
  rw [if_pos hcond]

theorem interpretOutcome_success (trigger : MessageQueueTrigger) (lr : LoopResult)
    (hr : HttpResponse) (b : List Nat)
    (hresp : lr.resp = some hr)
    (hfs : finalSuccess lr.resp lr.err = true)
    (hbody : hr.bodyRead = BodyRead.ok b) :
    interpretOutcome trigger lr =
      if trigger.responseTopic.length > 0 then
        ⟨lr.trace ++ [Event.ack, Event.publish trigger.responseTopic b],
         HandlerOutcome.completed⟩
      else ⟨lr.trace ++ [Event.ack], HandlerOutcome.completed⟩ := by
  obtain ⟨hr', hresp', herr, hstatus⟩ := finalSuccess_true_elim hfs
  have hhr : hr' = hr := by
    rw [hresp] at hresp'
    exact Option.some_inj.1 hresp'.symm
  rw [hhr] at hstatus
  have hcond : ¬(lr.err ≠ none ∨ hr.statusCode ≠ 200) := by
    rintro (h | h)
    · exact h herr
    · exact h hstatus
  simp only [interpretOutcome, hresp, hbody]
  rw [if_neg hcond]

theorem msgHandler_eq (routerUrl : String) (uff : String → String) (env : Env)
    (trigger : MessageQueueTrigger) (msgData : List Nat)
    (h1 : trigger.functionRefType = FunctionReferenceTypeFunctionName)
    (h2 : env.newRequestErr = false) :
    msgHandler routerUrl uff env trigger msgData =
      interpretOutcome trigger (loopRun env trigger msgData) := by
  simp [msgHandler, h1, h2, loopRun, buildRequest]

theorem loopRun_only_invokes (env : Env) (trigger : MessageQueueTrigger)
    (msgData : List Nat) :
    ∀ ev ∈ (loopRun env trigger msgData).trace, ∃ i p, ev = Event.invoke i p :=
  fun ev hev => retryLoop_only_invokes env.attemptResult msgData _ _ _ _ _ ev hev

theorem string_length_pos_of_ne {s : String} (h : s ≠ "") : s.length > 0 := by
  cases s with
  | mk data =>
    cases data with
    | nil => exact absurd (String.ext_iff.2 rfl) h
    | cons c cs => simp [String.length]

theorem string_length_not_pos_of_eq {s : String} (h : s = "") : ¬ s.length > 0 := by
  subst h
  decide

/-! ## The loop as run by the handler -/

theorem loopRun_def (env : Env) (trigger : MessageQueueTrigger) (msgData : List Nat) :
    loopRun env trigger msgData =
      retryLoop env.attemptResult msgData trigger.maxRetries 0 false none none := rfl

theorem loopRun_success_resp (env : Env) (trigger : MessageQueueTrigger) (msgData : List Nat)
    (hs : anySucceeds env.attemptResult trigger.maxRetries = true) :
    ∃ hr, (loopRun env trigger msgData).resp = some hr ∧
      (loopRun env trigger msgData).err = none ∧ hr.statusCode = 200 := by
  have hex := (anySucceeds_iff _ _).1 hs
  rw [loopRun_def]
  exact finalSuccess_true_elim
    (retryLoop_success_final env.attemptResult msgData trigger.maxRetries 0 false none none
      (by simpa using hex))

theorem loopRun_success_final (env : Env) (trigger : MessageQueueTrigger) (msgData : List Nat)
    (hs : anySucceeds env.attemptResult trigger.maxRetries = true) :
    finalSuccess (loopRun env trigger msgData).resp (loopRun env trigger msgData).err = true := by
  have hex := (anySucceeds_iff _ _).1 hs
  rw [loopRun_def]
  exact retryLoop_success_final env.attemptResult msgData trigger.maxRetries 0 false none none
    (by simpa using hex)

theorem loopRun_allfail_final (env : Env) (trigger : MessageQueueTrigger) (msgData : List Nat)
    (hf : anySucceeds env.attemptResult trigger.maxRetries = false) :
    finalSuccess (loopRun env trigger msgData).resp (loopRun env trigger msgData).err = false := by
  have hall := allFail_of_anySucceeds_false hf
  rw [loopRun_def]
  exact retryLoop_allfail_final env.attemptResult msgData trigger.maxRetries 0 false none none
    (finalSuccess_none none) (by intro i hi; simpa using hall i hi)

theorem loopRun_final_success (env : Env) (trigger : MessageQueueTrigger) (msgData : List Nat)
    (hfin : finalSuccess (loopRun env trigger msgData).resp (loopRun env trigger msgData).err
      = true) :
    anySucceeds env.attemptResult trigger.maxRetries = true := by
  rw [loopRun_def] at hfin
  have hex := retryLoop_final_success_attempt env.attemptResult msgData trigger.maxRetries 0
    false none none (finalSuccess_none none) hfin
  exact (anySucceeds_iff _ _).2 (by simpa using hex)

theorem loopRun_allfail_length (env : Env) (trigger : MessageQueueTrigger) (msgData : List Nat)
    (hf : anySucceeds env.attemptResult trigger.maxRetries = false) :
    (loopRun env trigger msgData).trace.length = trigger.maxRetries := by
  have hall := allFail_of_anySucceeds_false hf
  rw [loopRun_def]
  exact retryLoop_allfail_length env.attemptResult msgData trigger.maxRetries 0 false none none
    (by intro i hi; simpa using hall i hi)

theorem interpretOutcome_invoke_mem (trigger : MessageQueueTrigger) (lr : LoopResult)
    (j : Nat) (p : List Nat)
    (h : Event.invoke j p ∈ (interpretOutcome trigger lr).trace) :
    Event.invoke j p ∈ lr.trace := by
  rcases hresp : lr.resp with _ | hr
  · rwa [interpretOutcome_none trigger lr hresp] at h
  · cases hbr : hr.bodyRead with
    | readError e => rwa [interpretOutcome_readError trigger lr hr e hresp hbr] at h
    | ok b =>
      cases hfs : finalSuccess lr.resp lr.err with
      | false =>
        rw [interpretOutcome_exhausted trigger lr hr b hresp hfs hbr] at h
        by_cases het : trigger.errorTopic.length > 0
        · rw [if_pos het] at h
          rcases List.mem_append.1 h with h | h
          · exact h
          · simp at h
        · rwa [if_neg het] at h
      | true =>
        rw [interpretOutcome_success trigger lr hr b hresp hfs hbr] at h
        by_cases hrt : trigger.responseTopic.length > 0
        · rw [if_pos hrt] at h
          rcases List.mem_append.1 h with h | h
          · exact h
          · simp at h
        · rw [if_neg hrt] at h
          rcases List.mem_append.1 h with h | h
          · exact h
          · simp at h

/-! ## Claim theorems -/

/-- C3 (code bug): when every attempt yields an absent response, the handler
does not finish without accessing response fields — `defer resp.Body.Close()`
evaluates `resp.Body` with `resp == nil`, a nil-pointer dereference. On the
concrete input (maxRetries 1, `Do` returning `(nil, error)`), the run ends in
the `panicked` outcome instead of returning normally. -/
theorem c3_nil_dereference :
    (msgHandler "http://router" (fun n => "/" ++ n) exEnvC3 exTrgC3 [1, 2, 3]).outcome =
      HandlerOutcome.panicked ∧
    (msgHandler "http://router" (fun n => "/" ++ n) exEnvC3 exTrgC3 [1, 2, 3]).trace =
      [Event.invoke 0 []] := by
  decide

/-- C5 (counterexample): an unsupported function-reference type does not
affect only that message's dispatch — `log.Fatalf` terminates the hosting
process (outcome `fatal`). -/
theorem c5_counterexample :
    (msgHandler "http://router" (fun n => "/" ++ n) exEnvC5 exTrgC5 [1]).outcome =
      HandlerOutcome.fatal := by
  decide

/-- C5 (amended): the only ways a dispatcher run terminates the hosting
process are an unsupported function-reference type (`log.Fatalf`) and a retry
loop that ends with no response at all (the nil dereference at
`defer resp.Body.Close()`); every other per-message failure completes the
handler normally, affecting only that message. -/
theorem c5_fatal_only_unsupported_or_nil (routerUrl : String) (uff : String → String)
    (env : Env) (trigger : MessageQueueTrigger) (msgData : List Nat)
    (hout : (msgHandler routerUrl uff env trigger msgData).outcome ≠
      HandlerOutcome.completed) :
    trigger.functionRefType ≠ FunctionReferenceTypeFunctionName ∨
      (loopRun env trigger msgData).resp = none := by
  by_cases h1 : trigger.functionRefType = FunctionReferenceTypeFunctionName
  · right
    cases h2 : env.newRequestErr with
    | true =>
      exfalso
      apply hout
      simp [msgHandler, h1, h2]
    | false =>
      rw [msgHandler_eq routerUrl uff env trigger msgData h1 h2] at hout
      rcases hresp : (loopRun env trigger msgData).resp with _ | hr
      · rfl
      · exfalso
        apply hout
        cases hbr : hr.bodyRead with
        | readError e =>
          rw [interpretOutcome_readError trigger _ hr e hresp hbr]
        | ok b =>
          cases hfs : finalSuccess (loopRun env trigger msgData).resp
              (loopRun env trigger msgData).err with
          | false =>
            rw [interpretOutcome_exhausted trigger _ hr b hresp hfs hbr]
            by_cases het : trigger.errorTopic.length > 0
            · rw [if_pos het]
            · rw [if_neg het]
          | true =>
            rw [interpretOutcome_success trigger _ hr b hresp hfs hbr]
            by_cases hrt : trigger.responseTopic.length > 0
            · rw [if_pos hrt]
            · rw [if_neg hrt]
  · exact Or.inl h1

/-- C5 (witness): at a concrete input whose run panics (all responses absent,
supported reference type), the theorem yields that the final response was
absent. -/
theorem c5_witness : (loopRun exEnvC5w exTrgC5w [1]).resp = none :=
  Or.resolve_left
    (c5_fatal_only_unsupported_or_nil "http://router" (fun n => "/" ++ n)
      exEnvC5w exTrgC5w [1] (by decide))
    (by decide)

/-- C7 (confirmed): a topic that fails the broker's naming validation makes
`subscribe` return an error without ever calling the broker's `Subscribe`. -/
theorem c7_invalid_topic_no_subscribe (isChannelNameValid : String → Bool → Bool)
    (brokerSubscribeErr : Option String) (trigger : MessageQueueTrigger)
    (hbad : isChannelNameValid trigger.topic false = false) :
    (subscribe isChannelNameValid brokerSubscribeErr trigger).1 =
      some ("Not a valid topic: " ++ trigger.topic) ∧
    (subscribe isChannelNameValid brokerSubscribeErr trigger).2 = 0 := by
  simp [subscribe, isTopicValidForNats, hbad]

/-- C7 (witness): a rejecting validator on a wildcard topic — error returned,
zero broker subscribe calls. -/
theorem c7_witness :
    (subscribe exValidC7 none exTrgC7).1 = some ("Not a valid topic: " ++ exTrgC7.topic) ∧
    (subscribe exValidC7 none exTrgC7).2 = 0 :=
  c7_invalid_topic_no_subscribe exValidC7 none exTrgC7 rfl

/-- C8 (counterexample): the outbound request does not carry a header named
`X-MQTrigger-Topic` (nor the other `X-MQTrigger-*` names the claim gives);
its header names are `X-Fission-MQTrigger-*`. -/
theorem c8_counterexample :
    (buildRequest "http://router" (fun n => "/" ++ n) exTrgC8 [1, 2]).headers.map Prod.fst =
      ["X-Fission-MQTrigger-Topic", "X-Fission-MQTrigger-RespTopic",
       "X-Fission-MQTrigger-ErrorTopic", "Content-Type"] ∧
    List.lookup "X-MQTrigger-Topic"
      (buildRequest "http://router" (fun n => "/" ++ n) exTrgC8 [1, 2]).headers = none ∧
    List.lookup "X-MQTrigger-RespTopic"
      (buildRequest "http://router" (fun n => "/" ++ n) exTrgC8 [1, 2]).headers = none ∧
    List.lookup "X-MQTrigger-ErrorTopic"
      (buildRequest "http://router" (fun n => "/" ++ n) exTrgC8 [1, 2]).headers = none := by
  decide

/-- C8 (amended): every outbound invocation request carries the message
payload as its body and exactly four headers, named
`X-Fission-MQTrigger-Topic`, `X-Fission-MQTrigger-RespTopic`,
`X-Fission-MQTrigger-ErrorTopic` and `Content-Type`, holding the trigger's
topic, response topic, error topic and configured content type. -/
theorem c8_request_payload_and_headers (routerUrl : String) (uff : String → String)
    (trigger : MessageQueueTrigger) (msgData : List Nat) :
    (buildRequest routerUrl uff trigger msgData).body = msgData ∧
    ("X-Fission-MQTrigger-Topic", trigger.topic) ∈
      (buildRequest routerUrl uff trigger msgData).headers ∧
    ("X-Fission-MQTrigger-RespTopic", trigger.responseTopic) ∈
      (buildRequest routerUrl uff trigger msgData).headers ∧
    ("X-Fission-MQTrigger-ErrorTopic", trigger.errorTopic) ∈
      (buildRequest routerUrl uff trigger msgData).headers ∧
    ("Content-Type", trigger.contentType) ∈
      (buildRequest routerUrl uff trigger msgData).headers ∧
    (buildRequest routerUrl uff trigger msgData).headers.length = 4 := by
  simp [buildRequest, requestHeaders]

/-- C2 (confirmed): for a trigger with maxRetries = N in [1,5] and an
endpoint for which every attempt fails (transport error, nil response, or
non-200 status), the handler issues exactly N invocation attempts and never
acknowledges the message. -/
theorem c2_exactly_n_attempts (routerUrl : String) (uff : String → String)
    (env : Env) (trigger : MessageQueueTrigger) (msgData : List Nat)
    (h1 : trigger.functionRefType = FunctionReferenceTypeFunctionName)
    (h2 : env.newRequestErr = false)
    (hN1 : 1 ≤ trigger.maxRetries) (hN5 : trigger.maxRetries ≤ 5)
    (hfail : anySucceeds env.attemptResult trigger.maxRetries = false) :
    numInvokes (msgHandler routerUrl uff env trigger msgData).trace = trigger.maxRetries ∧
    Event.ack ∉ (msgHandler routerUrl uff env trigger msgData).trace := by
  have honly := loopRun_only_invokes env trigger msgData
  have hnoack := ack_not_mem_of_invokes honly
  have hnum : numInvokes (loopRun env trigger msgData).trace = trigger.maxRetries := by
    rw [numInvokes_of_invokes honly, loopRun_allfail_length env trigger msgData hfail]
  have hfs := loopRun_allfail_final env trigger msgData hfail
  rw [msgHandler_eq routerUrl uff env trigger msgData h1 h2]
  rcases hresp : (loopRun env trigger msgData).resp with _ | hr
  · rw [interpretOutcome_none trigger _ hresp]
    exact ⟨hnum, hnoack⟩
  · cases hbr : hr.bodyRead with
    | readError e =>
      rw [interpretOutcome_readError trigger _ hr e hresp hbr]
      exact ⟨hnum, hnoack⟩
    | ok b =>
      rw [interpretOutcome_exhausted trigger _ hr b hresp hfs hbr]
      by_cases het : trigger.errorTopic.length > 0
      · rw [if_pos het]
        constructor
        · show numInvokes ((loopRun env trigger msgData).trace ++
            [Event.publish trigger.errorTopic b]) = trigger.maxRetries
          rw [numInvokes_append, hnum]
          rfl
        · intro hack
          rcases List.mem_append.1 hack with hack | hack
          · exact hnoack hack
          · simp at hack
      · rw [if_neg het]
        exact ⟨hnum, hnoack⟩

/-- C2 (witness): maxRetries 3, three failing attempts — exactly 3
invocations. -/
theorem c2_witness :
    1 ≤ exTrgC2.maxRetries ∧ exTrgC2.maxRetries ≤ 5 ∧
    anySucceeds exEnvC2.attemptResult exTrgC2.maxRetries = false ∧
    numInvokes (msgHandler "http://router" (fun n => "/" ++ n)
      exEnvC2 exTrgC2 [7]).trace = exTrgC2.maxRetries :=
  ⟨by decide, by decide, by decide,
    (c2_exactly_n_attempts "http://router" (fun n => "/" ++ n) exEnvC2 exTrgC2 [7]
      rfl rfl (by decide) (by decide) (by decide)).1⟩

/-- C6 (confirmed): for every message whose invocation succeeded (some
attempt completed without transport error and with status 200), no publish
event occurs before an acknowledge event in the handler's trace — the ack
call precedes the response-topic publish, and no publish happens without a
prior ack. -/
theorem c6_ack_before_publish (routerUrl : String) (uff : String → String)
    (env : Env) (trigger : MessageQueueTrigger) (msgData : List Nat)
    (h1 : trigger.functionRefType = FunctionReferenceTypeFunctionName)
    (h2 : env.newRequestErr = false)
    (hs : anySucceeds env.attemptResult trigger.maxRetries = true) :
    noPublishBeforeAck (msgHandler routerUrl uff env trigger msgData).trace = true := by
  have honly := loopRun_only_invokes env trigger msgData
  obtain ⟨hr, hresp, herr, h200⟩ := loopRun_success_resp env trigger msgData hs
  have hfs := loopRun_success_final env trigger msgData hs
  rw [msgHandler_eq routerUrl uff env trigger msgData h1 h2]
  cases hbr : hr.bodyRead with
  | readError e =>
    rw [interpretOutcome_readError trigger _ hr e hresp hbr]
    exact noPublishBeforeAck_of_invokes honly
  | ok b =>
    rw [interpretOutcome_success trigger _ hr b hresp hfs hbr]
    by_cases hrt : trigger.responseTopic.length > 0
    · rw [if_pos hrt]
      exact noPublishBeforeAck_invokes_ack _ honly
    · rw [if_neg hrt]
      exact noPublishBeforeAck_invokes_ack _ honly

/-- C6 (witness): a successful first attempt with a response topic — the
trace is invoke, ack, publish, in that order. -/
theorem c6_witness :
    anySucceeds exEnvC6.attemptResult exTrgC6.maxRetries = true ∧
    noPublishBeforeAck (msgHandler "http://router" (fun n => "/" ++ n)
      exEnvC6 exTrgC6 [8]).trace = true :=
  ⟨by decide,
    c6_ack_before_publish "http://router" (fun n => "/" ++ n) exEnvC6 exTrgC6 [8]
      rfl rfl (by decide)⟩

/-- C9 (confirmed): when retries are exhausted and the final attempt's
response body cannot be read, the handler returns without publishing anything
— even with errorTopic configured. -/
theorem c9_unreadable_body_no_publish (routerUrl : String) (uff : String → String)
    (env : Env) (trigger : MessageQueueTrigger) (msgData : List Nat)
    (h1 : trigger.functionRefType = FunctionReferenceTypeFunctionName)
    (h2 : env.newRequestErr = false)
    (hfail : anySucceeds env.attemptResult trigger.maxRetries = false)
    (hr : HttpResponse) (e : String)
    (hresp : (loopRun env trigger msgData).resp = some hr)
    (hbr : hr.bodyRead = BodyRead.readError e)
    (het : trigger.errorTopic ≠ "") :
    publishes (msgHandler routerUrl uff env trigger msgData).trace = [] ∧
    (msgHandler routerUrl uff env trigger msgData).outcome = HandlerOutcome.completed := by
  have honly := loopRun_only_invokes env trigger msgData
  rw [msgHandler_eq routerUrl uff env trigger msgData h1 h2,
    interpretOutcome_readError trigger _ hr e hresp hbr]
  exact ⟨publishes_of_invokes honly, rfl⟩

/-- C9 (witness): one failing attempt with status 500 and unreadable body,
errorTopic "err" — no publish, normal return. -/
theorem c9_witness :
    publishes (msgHandler "http://router" (fun n => "/" ++ n)
      exEnvC9 exTrgC9 [2]).trace = [] ∧
    (msgHandler "http://router" (fun n => "/" ++ n) exEnvC9 exTrgC9 [2]).outcome =
      HandlerOutcome.completed :=
  c9_unreadable_body_no_publish "http://router" (fun n => "/" ++ n) exEnvC9 exTrgC9 [2]
    rfl rfl (by decide) ⟨500, BodyRead.readError "bad"⟩ "bad" (by decide) rfl (by decide)

/-- C10 (confirmed): the single request's body reader wraps the payload once;
once some attempt has consumed it, no later attempt transmits the original
payload again (later attempts transmit an empty body), while the first
consuming attempt transmits the full payload. -/
theorem c10_no_resend_after_consume (routerUrl : String) (uff : String → String)
    (env : Env) (trigger : MessageQueueTrigger) (msgData : List Nat)
    (h1 : trigger.functionRefType = FunctionReferenceTypeFunctionName)
    (h2 : env.newRequestErr = false) :
    noResendAfterConsume env.attemptResult
      (msgHandler routerUrl uff env trigger msgData).trace = true ∧
    (∀ p, (env.attemptResult 0).consumesBody = true →
      Event.invoke 0 p ∈ (msgHandler routerUrl uff env trigger msgData).trace →
      p = msgData) := by
  rw [msgHandler_eq routerUrl uff env trigger msgData h1 h2]
  constructor
  · rw [noResendAfterConsume_iff]
    intro j p hmem i hij hcons
    have hmem' := interpretOutcome_invoke_mem trigger _ j p hmem
    rw [loopRun_def] at hmem'
    exact retryLoop_after_consume env.attemptResult msgData trigger.maxRetries 0 false
      none none i j p (Nat.zero_le i) hij hcons hmem'
  · intro p hcons hmem
    have hmem' := interpretOutcome_invoke_mem trigger _ 0 p hmem
    rw [loopRun_def] at hmem'
    exact retryLoop_first_invoke env.attemptResult msgData trigger.maxRetries p hcons hmem'

/-- C10 (witness): two failing attempts, both consuming the reader — no
invoke after the first carries the payload. -/
theorem c10_witness :
    noResendAfterConsume exEnvC10.attemptResult
      (msgHandler "http://router" (fun n => "/" ++ n) exEnvC10 exTrgC10 [5]).trace = true :=
  (c10_no_resend_after_consume "http://router" (fun n => "/" ++ n) exEnvC10 exTrgC10 [5]
    rfl rfl).1

/-- C1 (counterexample): "acknowledged iff the invocation outcome succeeded"
fails — here the single attempt succeeds (no transport error, status 200),
yet the message is never acknowledged, because the response body is
unreadable and the handler returns before `msg.Ack()`. -/
theorem c1_counterexample :
    anySucceeds exEnvC1.attemptResult exTrgC1.maxRetries = true ∧
    Event.ack ∉ (msgHandler "http://router" (fun n => "/" ++ n)
      exEnvC1 exTrgC1 [4, 2]).trace := by
  decide

/-- C1 (amended): the acknowledge call is made if and only if the invocation
outcome succeeded (some attempt completed without transport error and with
status 200) AND the successful response's body was read without error; in
particular a message whose attempts all failed is never acknowledged. -/
theorem c1_ack_iff_success_and_readable_body (routerUrl : String) (uff : String → String)
    (env : Env) (trigger : MessageQueueTrigger) (msgData : List Nat)
    (h1 : trigger.functionRefType = FunctionReferenceTypeFunctionName)
    (h2 : env.newRequestErr = false) :
    (Event.ack ∈ (msgHandler routerUrl uff env trigger msgData).trace ↔
      (anySucceeds env.attemptResult trigger.maxRetries = true ∧
        finalReadBody (loopRun env trigger msgData) ≠ none)) ∧
    (anySucceeds env.attemptResult trigger.maxRetries = false →
      Event.ack ∉ (msgHandler routerUrl uff env trigger msgData).trace) := by
  have honly := loopRun_only_invokes env trigger msgData
  have hnoack := ack_not_mem_of_invokes honly
  rw [msgHandler_eq routerUrl uff env trigger msgData h1 h2]
  have hiff : Event.ack ∈ (interpretOutcome trigger (loopRun env trigger msgData)).trace ↔
      (anySucceeds env.attemptResult trigger.maxRetries = true ∧
        finalReadBody (loopRun env trigger msgData) ≠ none) := by
    constructor
    · intro hack
      rcases hresp : (loopRun env trigger msgData).resp with _ | hr
      · rw [interpretOutcome_none trigger _ hresp] at hack
        exact absurd hack hnoack
      · cases hbr : hr.bodyRead with
        | readError e =>
          rw [interpretOutcome_readError trigger _ hr e hresp hbr] at hack
          exact absurd hack hnoack
        | ok b =>
          cases hfs : finalSuccess (loopRun env trigger msgData).resp
              (loopRun env trigger msgData).err with
          | false =>
            rw [interpretOutcome_exhausted trigger _ hr b hresp hfs hbr] at hack
            by_cases het : trigger.errorTopic.length > 0
            · rw [if_pos het] at hack
              rcases List.mem_append.1 hack with hack | hack
              · exact absurd hack hnoack
              · simp at hack
            · rw [if_neg het] at hack
              exact absurd hack hnoack
          | true =>
            refine ⟨loopRun_final_success env trigger msgData hfs, ?_⟩
            simp only [finalReadBody, hresp, hbr]
            exact Option.some_ne_none b
    · rintro ⟨hs, hbody⟩
      obtain ⟨hr, hresp, herr, h200⟩ := loopRun_success_resp env trigger msgData hs
      have hfs := loopRun_success_final env trigger msgData hs
      cases hbr : hr.bodyRead with
      | readError e =>
        exfalso
        apply hbody
        simp only [finalReadBody, hresp, hbr]
      | ok b =>
        rw [interpretOutcome_success trigger _ hr b hresp hfs hbr]
        by_cases hrt : trigger.responseTopic.length > 0
        · rw [if_pos hrt]
          show Event.ack ∈ (loopRun env trigger msgData).trace ++
            [Event.ack, Event.publish trigger.responseTopic b]
          exact List.mem_append.2 (Or.inr (List.mem_cons_self _ _))
        · rw [if_neg hrt]
          show Event.ack ∈ (loopRun env trigger msgData).trace ++ [Event.ack]
          exact List.mem_append.2 (Or.inr (List.mem_singleton.2 rfl))
  refine ⟨hiff, ?_⟩
  intro hf hack
  have hs := (hiff.1 hack).1
  rw [hf] at hs
  exact Bool.noConfusion hs

/-- C1 (witness): one successful attempt with a readable body — acknowledged,
confirming the amended iff in the positive direction. -/
theorem c1_witness :
    anySucceeds exEnvC1w.attemptResult exTrgC1w.maxRetries = true ∧
    Event.ack ∈ (msgHandler "http://router" (fun n => "/" ++ n)
      exEnvC1w exTrgC1w [9]).trace :=
  ⟨by decide,
    ((c1_ack_iff_success_and_readable_body "http://router" (fun n => "/" ++ n)
      exEnvC1w exTrgC1w [9] rfl rfl).1).2 ⟨by decide, by decide⟩⟩

/-- C4 (counterexample): an exhausted message (single attempt, status 500)
with errorTopic configured and an unreadable final body produces NO publish at
all — not the "exactly one publish carrying the last observed body (or an
empty payload if no body was ever obtained)" the claim requires. -/
theorem c4_counterexample :
    anySucceeds exEnvC4c.attemptResult exTrgC4c.maxRetries = false ∧
    exTrgC4c.errorTopic = "err" ∧
    publishes (msgHandler "http://router" (fun n => "/" ++ n)
      exEnvC4c exTrgC4c [3]).trace = [] ∧
    Event.ack ∉ (msgHandler "http://router" (fun n => "/" ++ n)
      exEnvC4c exTrgC4c [3]).trace := by
  decide

/-- C4 (amended): a message that exhausts its retries is never acknowledged;
if errorTopic is unset no publish occurs at all; if errorTopic is set, exactly
one publish to errorTopic occurs carrying the final attempt's body when that
body was obtained and readable, and no publish occurs otherwise (unreadable
final body, or no final response at all — in the latter case the handler
crashes on the nil response instead of publishing an empty payload). -/
theorem c4_exhausted_publish (routerUrl : String) (uff : String → String)
    (env : Env) (trigger : MessageQueueTrigger) (msgData : List Nat)
    (h1 : trigger.functionRefType = FunctionReferenceTypeFunctionName)
    (h2 : env.newRequestErr = false)
    (hfail : anySucceeds env.attemptResult trigger.maxRetries = false) :
    Event.ack ∉ (msgHandler routerUrl uff env trigger msgData).trace ∧
    (trigger.errorTopic = "" →
      publishes (msgHandler routerUrl uff env trigger msgData).trace = []) ∧
    (trigger.errorTopic ≠ "" →
      publishes (msgHandler routerUrl uff env trigger msgData).trace =
        (match finalReadBody (loopRun env trigger msgData) with
         | some b => [(trigger.errorTopic, b)]
         | none => [])) := by
  have honly := loopRun_only_invokes env trigger msgData
  have hnoack := ack_not_mem_of_invokes honly
  have hnopub := publishes_of_invokes honly
  have hfs := loopRun_allfail_final env trigger msgData hfail
  rw [msgHandler_eq routerUrl uff env trigger msgData h1 h2]
  rcases hresp : (loopRun env trigger msgData).resp with _ | hr
  · rw [interpretOutcome_none trigger _ hresp]
    refine ⟨hnoack, fun _ => hnopub, fun _ => ?_⟩
    simp only [finalReadBody, hresp]
    exact hnopub
  · cases hbr : hr.bodyRead with
    | readError e =>
      rw [interpretOutcome_readError trigger _ hr e hresp hbr]
      refine ⟨hnoack, fun _ => hnopub, fun _ => ?_⟩
      simp only [finalReadBody, hresp, hbr]
      exact hnopub
    | ok b =>
      rw [interpretOutcome_exhausted trigger _ hr b hresp hfs hbr]
      by_cases hets : trigger.errorTopic = ""
      · rw [if_neg (string_length_not_pos_of_eq hets)]
        exact ⟨hnoack, fun _ => hnopub, fun hne => absurd hets hne⟩
      · rw [if_pos (string_length_pos_of_ne hets)]
        refine ⟨?_, fun heq => absurd heq hets, fun _ => ?_⟩
        · intro hack
          rcases List.mem_append.1 hack with hack | hack
          · exact hnoack hack
          · simp at hack
        · show publishes ((loopRun env trigger msgData).trace ++
            [Event.publish trigger.errorTopic b]) =
            (match finalReadBody (loopRun env trigger msgData) with
             | some b => [(trigger.errorTopic, b)]
             | none => [])
          rw [publishes_append, hnopub]
          simp only [finalReadBody, hresp, hbr]
          rfl

/-- C4 (witness): two failing attempts with readable body [7], errorTopic
"errors" — exactly one publish to "errors" with [7], and no ack. -/
theorem c4_witness :
    anySucceeds exEnvC4.attemptResult exTrgC4.maxRetries = false ∧
    Event.ack ∉ (msgHandler "http://router" (fun n => "/" ++ n)
      exEnvC4 exTrgC4 [5]).trace ∧
    publishes (msgHandler "http://router" (fun n => "/" ++ n)
      exEnvC4 exTrgC4 [5]).trace = [("errors", [7])] := by
  have h := c4_exhausted_publish "http://router" (fun n => "/" ++ n) exEnvC4 exTrgC4 [5]
    rfl rfl (by decide)
  refine ⟨by decide, h.1, ?_⟩
  rw [h.2.2 (by decide)]
  decide

end FissionMQ
